import Mathlib

/-!
Shallow embedding of the OAuth2/OIDC core of this repository:
the singleton in-memory TTL cache (`src/core/cache/memory_cache.py`),
the PKCE store (`src/core/auth/pkce_store.py`), the generic OIDC client
(`src/core/auth/oidc_client.py`) and the JWKS-backed token validator
(`src/core/auth/oidc_token_validator.py`).

Conventions of the embedding:
* wall-clock instants (Python `time.time()` floats) are modelled as
  rationals `ℚ`; within one lock-protected cache operation the source may
  call `time.time()` twice at instants that can only differ by nanoseconds,
  and the embedding passes the single instant `now` to both uses;
* Python `dict[str, str]` values (form bodies, JSON objects, query
  parameter maps) are modelled as insertion-ordered association lists
  `List (String × String)` with the update-in-place-or-append write
  `dictSet`, matching CPython dict semantics;
* raw bytes are `Fin 256`; external library calls (`hashlib.sha256`,
  `os.urandom` behind `secrets`, the `httpx` transport, `jose.jwt`
  parsing/decoding) are oracles passed as function arguments;
* raised exceptions are `Except` errors carrying the exception kind and
  message built exactly as the source builds them.
-/

set_option autoImplicit false

/-- Byte values, the elements of Python `bytes`. -/
abbrev Byte := Fin 256

/-- A single-quote character as a one-character string, used to rebuild the
source's f-string error messages verbatim. -/
def squote : String := ⟨[Char.ofNat 39]⟩

/-- Lower-case hexadecimal digit character for a value below 16
(`0123456789abcdef`), as produced by Python `bytes.hex`. -/
def hexDigitChar (n : Nat) : Char :=
  if n < 10 then Char.ofNat (48 + n) else Char.ofNat (87 + n)

/-- The two lower-case hex characters of one byte. -/
def hexByteChars (b : Byte) : List Char :=
  [hexDigitChar (b.val / 16), hexDigitChar (b.val % 16)]

/-- Hex rendering of a byte string; `secrets.token_hex(n)` is `hexEncode`
of `n` random bytes. -/
def hexEncode (bs : List Byte) : String :=
  ⟨(bs.map hexByteChars).flatten⟩

/-- Characters counted as hexadecimal digits of `token_hex` output. -/
def isHexChar (c : Char) : Prop := c ∈ "0123456789abcdef".data

instance (c : Char) : Decidable (isHexChar c) := by
  unfold isHexChar; infer_instance

/-- The base64url alphabet of `base64.urlsafe_b64encode`. -/
def b64Alphabet : String :=
  "ABCDEFGHIJKLMNOPQRSTUVWXYZabcdefghijklmnopqrstuvwxyz0123456789-_"

/-- Character of the base64url alphabet at a 6-bit index. -/
def b64Char (n : Nat) : Char := b64Alphabet.data.getD n 'A'

/-- Base64url encoding with `=` padding, as `base64.urlsafe_b64encode`
produces byte-for-byte (grouping the input into 3-byte chunks). -/
def b64urlEncode : List Byte → String
  | [] => ""
  | [a] =>
      ⟨[b64Char (a.val / 4), b64Char (a.val % 4 * 16), '=', '=']⟩
  | [a, b] =>
      ⟨[b64Char (a.val / 4), b64Char (a.val % 4 * 16 + b.val / 16),
        b64Char (b.val % 16 * 4), '=']⟩
  | a :: b :: c :: rest =>
      (⟨[b64Char (a.val / 4), b64Char (a.val % 4 * 16 + b.val / 16),
         b64Char (b.val % 16 * 4 + c.val / 64), b64Char (c.val % 64)]⟩ : String)
        ++ b64urlEncode rest

/-- Base64url encoding without padding, written from the spec's words
`base64url encoding without padding of SHA-256(verifier)`: the same
encoding with no `=` characters appended. -/
def b64urlNoPad : List Byte → String
  | [] => ""
  | [a] =>
      ⟨[b64Char (a.val / 4), b64Char (a.val % 4 * 16)]⟩
  | [a, b] =>
      ⟨[b64Char (a.val / 4), b64Char (a.val % 4 * 16 + b.val / 16),
        b64Char (b.val % 16 * 4)]⟩
  | a :: b :: c :: rest =>
      (⟨[b64Char (a.val / 4), b64Char (a.val % 4 * 16 + b.val / 16),
         b64Char (b.val % 16 * 4 + c.val / 64), b64Char (c.val % 64)]⟩ : String)
        ++ b64urlNoPad rest

/-- Python `str.rstrip("=")` / `bytes.rstrip(b"=")`. -/
def rstripEq (s : String) : String :=
  ⟨(s.data.reverse.dropWhile (fun c => c == '=')).reverse⟩

/-- Number of base64url characters left after stripping padding from the
encoding of `n` bytes. -/
def b64NoPadLen : Nat → Nat
  | 0 => 0
  | 1 => 2
  | 2 => 3
  | n + 3 => 4 + b64NoPadLen n

/-- ASCII encoding of a string whose characters are all ASCII
(`str.encode("ascii")`); chars are reduced mod 256, a no-op on the
base64url alphabet the source applies it to. -/
def asciiBytes (s : String) : List Byte :=
  s.data.map (fun c => (⟨c.toNat % 256, Nat.mod_lt _ (by decide)⟩ : Byte))

/-- Python's `secrets.token_urlsafe`: base64url-encode the random bytes and
strip the `=` padding. -/
def token_urlsafe (randomBytes : List Byte) : String :=
  rstripEq (b64urlEncode randomBytes)

/-- Python's `secrets.token_hex`: lower-case hex of the random bytes. -/
def token_hex (randomBytes : List Byte) : String :=
  hexEncode randomBytes

/-- Embedding of `generate_pkce_pair` (`oidc_client.py`): the verifier is
`secrets.token_urlsafe(64)` applied to 64 random bytes, the challenge is the
padded urlsafe base64 of `sha256(verifier.encode("ascii"))` with the `=`
padding stripped.  The `hashlib.sha256` digest function is an oracle. -/
def generate_pkce_pair (sha256 : List Byte → List Byte)
    (randomBytes : List Byte) : String × String :=
  let code_verifier := token_urlsafe randomBytes
  let code_challenge := rstripEq (b64urlEncode (sha256 (asciiBytes code_verifier)))
  (code_verifier, code_challenge)

/-- URL-safe characters never quoted by `urllib.parse.quote_plus`. -/
def isUrlSafeChar (c : Char) : Bool :=
  c.isAlphanum || c == '_' || c == '.' || c == '-' || c == '~'

/-- Upper-case hexadecimal digit character for a value below 16, as used by
percent-escapes. -/
def hexDigitCharUpper (n : Nat) : Char :=
  if n < 10 then Char.ofNat (48 + n) else Char.ofNat (55 + n)

/-- UTF-8 bytes of one character. -/
def utf8Bytes (c : Char) : List Nat :=
  let n := c.toNat
  if n < 128 then [n]
  else if n < 2048 then [192 + n / 64, 128 + n % 64]
  else if n < 65536 then [224 + n / 4096, 128 + n / 64 % 64, 128 + n % 64]
  else [240 + n / 262144, 128 + n / 4096 % 64, 128 + n / 64 % 64, 128 + n % 64]

/-- Quoting of one character under `quote_plus`: safe characters pass
through, a space becomes `+`, anything else is percent-escaped per UTF-8
byte. -/
def quotePlusChar (c : Char) : List Char :=
  if isUrlSafeChar c then [c]
  else if c == ' ' then ['+']
  else (utf8Bytes c).map (fun b =>
    [('%' : Char), hexDigitCharUpper (b / 16), hexDigitCharUpper (b % 16)]) |>.flatten

/-- `urllib.parse.quote_plus` with the default empty `safe` set. -/
def quotePlus (s : String) : String :=
  ⟨(s.data.map quotePlusChar).flatten⟩

/-- Insertion-ordered string dictionary (CPython `dict[str, str]`). -/
abbrev Dict := List (String × String)

/-- Dictionary write `d[k] = v`: replace the value at the first occurrence
of the key keeping its position, else append the pair. -/
def dictSet : Dict → String → String → Dict
  | [], k, v => [(k, v)]
  | (k', v') :: rest, k, v =>
      if k' = k then (k', v) :: rest else (k', v') :: dictSet rest k v

/-- `urllib.parse.urlencode`: join `quote_plus(k)=quote_plus(v)` pairs
with `&`. -/
def urlencode : Dict → String
  | [] => ""
  | [kv] => quotePlus kv.1 ++ "=" ++ quotePlus kv.2
  | kv :: kv2 :: rest =>
      quotePlus kv.1 ++ "=" ++ quotePlus kv.2 ++ "&" ++ urlencode (kv2 :: rest)

/-- Substring occurrence: `sub` occurs somewhere inside `s`. -/
def containsSub (s sub : String) : Prop :=
  ∃ l r, s = l ++ sub ++ r

/-- State of one `InMemoryCache` instance: the `_store` dict mapping a key
to its value and absolute expiry `(value, expires_at)`. -/
def CacheState := String → Option (String × ℚ)

/-- The store of a freshly constructed cache instance. -/
def emptyCache : CacheState := fun _ => none

namespace InMemoryCache

/-- Embedding of `InMemoryCache._cleanup_expired`: drop every entry whose
expiry is at or before the current time. -/
def cleanupExpired (c : CacheState) (now : ℚ) : CacheState := fun k =>
  match c k with
  | some (v, expires_at) => if now < expires_at then some (v, expires_at) else none
  | none => none

/-- Embedding of `InMemoryCache.set`: sweep expired entries, then store the
value with absolute expiry `now + ttl_seconds`. -/
def set (c : CacheState) (key value : String) (ttl_seconds : ℚ) (now : ℚ) :
    CacheState :=
  let c' := cleanupExpired c now
  fun k => if k = key then some (value, now + ttl_seconds) else c' k

/-- Embedding of `InMemoryCache.get`: sweep expired entries, return the
value if present and unexpired; a present-but-expired entry is deleted and
`None` returned. -/
def get (c : CacheState) (key : String) (now : ℚ) : Option String × CacheState :=
  let c' := cleanupExpired c now
  match c' key with
  | some (v, expires_at) =>
      if now < expires_at then (some v, c')
      else (none, fun k => if k = key then none else c' k)
  | none => (none, c')

/-- Embedding of `InMemoryCache.pop`: sweep expired entries, remove the
entry if present, and return its value when the expiry check passes. -/
def pop (c : CacheState) (key : String) (now : ℚ) : Option String × CacheState :=
  let c' := cleanupExpired c now
  match c' key with
  | some (v, expires_at) =>
      ((if now < expires_at then some v else none),
       fun k => if k = key then none else c' k)
  | none => (none, c')

/-- Embedding of `InMemoryCache.delete`. -/
def delete (c : CacheState) (key : String) : Bool × CacheState :=
  match c key with
  | some _ => (true, fun k => if k = key then none else c k)
  | none => (false, c)

/-- Embedding of `InMemoryCache.clear`. -/
def clear (_ : CacheState) : CacheState := fun _ => none

end InMemoryCache

/-- TTL constant `PKCE_TTL_SECONDS` of `pkce_store.py`. -/
def PKCE_TTL_SECONDS : ℚ := 600

/-- Key derivation `f"pkce:state"` with prefix constant `PKCE_PREFIX`. -/
def pkceKey (state : String) : String := "pkce:" ++ state

/-- Embedding of `store_pkce_verifier`: store the verifier under the
prefixed state key with the 600-second TTL, on the shared cache state. -/
def store_pkce_verifier (c : CacheState) (state code_verifier : String)
    (now : ℚ) : CacheState :=
  InMemoryCache.set c (pkceKey state) code_verifier PKCE_TTL_SECONDS now

/-- Embedding of `retrieve_pkce_verifier`: pop the verifier stored under the
prefixed state key. -/
def retrieve_pkce_verifier (c : CacheState) (state : String) (now : ℚ) :
    Option String × CacheState :=
  InMemoryCache.pop c (pkceKey state) now

/-- Operations of the PKCE store surface (`PKCEStore.store` /
`PKCEStore.retrieve`), each tagged with the wall-clock instant at which it
runs. -/
inductive PkceOp where
  | opStore (state code_verifier : String) (now : ℚ)
  | opRetrieve (state : String) (now : ℚ)

/-- Effect of one PKCE-store operation on the shared cache state. -/
def stepPkce (c : CacheState) : PkceOp → CacheState
  | .opStore s v t => store_pkce_verifier c s v t
  | .opRetrieve s t => (retrieve_pkce_verifier c s t).2

/-- Run a sequence of PKCE-store operations. -/
def runPkce (c : CacheState) (ops : List PkceOp) : CacheState :=
  ops.foldl stepPkce c

/-- The wall-clock instant of a PKCE-store operation. -/
def pkceOpTime : PkceOp → ℚ
  | .opStore _ _ t => t
  | .opRetrieve _ t => t

/-- Whether a PKCE-store operation is a store for the given state. -/
def isStoreFor (state : String) : PkceOp → Prop
  | .opStore s _ _ => s = state
  | .opRetrieve _ _ => False

/-- Whether a PKCE-store operation is a retrieve for the given state. -/
def isRetrieveFor (state : String) : PkceOp → Prop
  | .opStore _ _ _ => False
  | .opRetrieve s _ => s = state

/-- The class attribute `InMemoryCache._instance`: `None` until the first
construction, then the object id of the singleton. -/
def SingletonState := Option Nat

/-- Embedding of `InMemoryCache.__new__`: return the stored instance when
one exists, otherwise allocate (`fresh` is the object id the allocator
would hand out) and remember it.  Returns the object id handed to the
caller and the updated class attribute. -/
def newInstance (instanceAttr : SingletonState) (fresh : Nat) :
    Nat × SingletonState :=
  match instanceAttr with
  | some r => (r, some r)
  | none => (fresh, some fresh)

/-- Run a sequence of `InMemoryCache()` constructions, collecting the
object ids returned to each caller. -/
def runNews : SingletonState → List Nat → List Nat × SingletonState
  | cs, [] => ([], cs)
  | cs, f :: fs =>
      let (r, cs') := newInstance cs f
      let (rs, cs'') := runNews cs' fs
      (r :: rs, cs'')

/-- The process heap restricted to cache objects: object id to `_store`
contents. -/
def Heap := Nat → CacheState

/-- `handle.set key value ttl` through an object id into the heap. -/
def setThrough (h : Heap) (handle : Nat) (key value : String)
    (ttl now : ℚ) : Heap :=
  fun r => if r = handle then InMemoryCache.set (h r) key value ttl now else h r

/-- `handle.pop key` through an object id into the heap. -/
def popThrough (h : Heap) (handle : Nat) (key : String) (now : ℚ) :
    Option String × Heap :=
  let (v, c') := InMemoryCache.pop (h handle) key now
  (v, fun r => if r = handle then c' else h r)

/-- Constructor configuration of `GenericOIDCClient`. -/
structure OIDCConfig where
  client_id : String
  client_secret : String
  redirect_uri : String
  token_endpoint : String
  authorization_endpoint : String
  scope : String := "openid profile email"
  user_info_endpoint : Option String := none
  use_pkce : Bool := true

/-- An HTTP response as the client observes it: status code and the JSON
object body. -/
structure HttpResponse where
  status : Nat
  body : Dict

/-- `httpx.Response.is_success`, the condition under which
`raise_for_status` does not raise: a 2xx status. -/
def isSuccess (status : Nat) : Bool := 200 ≤ status && status < 300

/-- Errors the client operations can raise. -/
inductive ClientError where
  | httpStatusError (status : Nat)
  | valueError (msg : String)
  deriving Repr, DecidableEq

/-- Python truthiness of an optional string (`if state:`): absent and empty
are falsy. -/
def strTruthy : Option String → Bool
  | none => false
  | some s => !(s = "")

/-- The form body assembled by `exchange_code_for_token` lines 150-162,
together with the cache state after the PKCE retrieval: the base fields,
plus `code_verifier` when PKCE is enabled, a truthy state was supplied and
the store still holds a truthy verifier for it. -/
def exchangeRequestData (cfg : OIDCConfig) (code : String)
    (state : Option String) (c : CacheState) (now : ℚ) : Dict × CacheState :=
  let data : Dict :=
    [("grant_type", "authorization_code"),
     ("code", code),
     ("client_id", cfg.client_id),
     ("client_secret", cfg.client_secret),
     ("redirect_uri", cfg.redirect_uri),
     ("scope", cfg.scope)]
  if cfg.use_pkce && strTruthy state then
    let (code_verifier, c') := retrieve_pkce_verifier c (state.getD "") now
    if strTruthy code_verifier then
      (dictSet data "code_verifier" (code_verifier.getD ""), c')
    else (data, c')
  else (data, c)

/-- Embedding of `GenericOIDCClient.exchange_code_for_token`: build the
form body (retrieving the PKCE verifier if available), POST it to the token
endpoint (the `post` oracle), `raise_for_status`, and return the JSON body.
No field of the body is inspected. -/
def exchange_code_for_token (cfg : OIDCConfig) (code : String)
    (state : Option String) (c : CacheState) (now : ℚ)
    (post : Dict → HttpResponse) : Except ClientError Dict × CacheState :=
  let (data, c') := exchangeRequestData cfg code state c now
  let response := post data
  (if isSuccess response.status then Except.ok response.body
   else Except.error (ClientError.httpStatusError response.status), c')

/-- Embedding of `GenericOIDCClient.build_login_redirect_url`: generate the
state when the argument is falsy (`state or secrets.token_hex(16)`),
assemble the query dict, fold in `extra_params`, and if PKCE is enabled
generate a verifier/challenge pair, store the verifier under the state, and
append the challenge parameters.  Randomness and the hash are oracles:
`stateBytes` are the 16 bytes `token_hex` would consume, `verifierBytes`
the 64 bytes `token_urlsafe` would consume.  Returns the URL, the state and
the cache state after the store. -/
def build_login_redirect_url (cfg : OIDCConfig)
    (state : Option String) (prompt : Option String) (extra_params : Dict)
    (sha256 : List Byte → List Byte) (stateBytes verifierBytes : List Byte)
    (c : CacheState) (now : ℚ) : String × String × CacheState :=
  let st := if strTruthy state then state.getD "" else token_hex stateBytes
  let params : Dict :=
    [("client_id", cfg.client_id),
     ("response_type", "code"),
     ("redirect_uri", cfg.redirect_uri),
     ("response_mode", "query"),
     ("scope", cfg.scope),
     ("state", st)]
  let params := if strTruthy prompt then dictSet params "prompt" (prompt.getD "") else params
  let params := extra_params.foldl (fun ps kv => dictSet ps kv.1 kv.2) params
  let (params, c') :=
    if cfg.use_pkce then
      let pair := generate_pkce_pair sha256 verifierBytes
      (dictSet (dictSet params "code_challenge" pair.2)
        "code_challenge_method" "S256",
       store_pkce_verifier c st pair.1 now)
    else (params, c)
  (cfg.authorization_endpoint ++ "?" ++ urlencode params, st, c')

/-- Embedding of `GenericOIDCClient.get_user_info`: raise
`ValueError("User info endpoint not configured")` when the endpoint is
falsy, otherwise GET it with a Bearer header.  The second component logs
every HTTP request issued (URL and headers). -/
def get_user_info (cfg : OIDCConfig) (access_token : String)
    (getHttp : String → Dict → HttpResponse) :
    Except ClientError Dict × List (String × Dict) :=
  if !(strTruthy cfg.user_info_endpoint) then
    (Except.error (ClientError.valueError "User info endpoint not configured"), [])
  else
    let url := cfg.user_info_endpoint.getD ""
    let headers : Dict :=
      [("Authorization", "Bearer " ++ access_token), ("Accept", "application/json")]
    let response := getHttp url headers
    (if isSuccess response.status then Except.ok response.body
     else Except.error (ClientError.httpStatusError response.status),
     [(url, headers)])

/-- One JWK entry of a fetched key set: its optional `kid` and the rest of
the key dict, abstracted as opaque key material. -/
structure Jwk where
  kid : Option String
  material : String
  deriving Repr, DecidableEq

/-- A fetched JWKS document, reduced to `jwks.get("keys", [])`: a document
with no `keys` field is the empty list. -/
structure JwksDoc where
  keys : List Jwk
  deriving Repr, DecidableEq

/-- The key search of `_get_key`:
`next((k for k in jwks.get("keys", []) if k.get("kid") == kid), None)`. -/
def findKid (doc : JwksDoc) (kid : String) : Option Jwk :=
  doc.keys.find? (fun k => k.kid == some kid)

/-- Validator instance state: `_jwks_cache` and `_jwks_fetched_at`. -/
structure JwksState where
  jwks_cache : Option JwksDoc
  jwks_fetched_at : ℚ
  deriving Repr, DecidableEq

/-- Outcome of one underlying `httpx` GET of the JWKS URI: a transport
error (`httpx.RequestError`), a non-2xx status (`raise_for_status`), or the
parsed JSON document. -/
inductive FetchOutcome where
  | netErr (msg : String)
  | httpErr (status : Nat)
  | ok (doc : JwksDoc)

/-- Errors raised by the validator: `jose.JWTError` (with its message) or a
propagated `httpx.HTTPStatusError`, which is not a `JWTError` and so is
wrapped nowhere. -/
inductive VError where
  | jwtError (msg : String)
  | httpStatusError (status : Nat)
  deriving Repr, DecidableEq

/-- Embedding of `OIDCTokenValidator._fetch_jwks`: the `fetchCount`-th
fetch attempt is consulted; a transport error is wrapped as
`JWTError("Failed to fetch JWKS: ...")`, a status error propagates as-is,
success yields the document.  Returns the incremented fetch counter. -/
def fetch_jwks (fetch : Nat → FetchOutcome) (fetchCount : Nat) :
    Except VError JwksDoc × Nat :=
  match fetch fetchCount with
  | .netErr m => (Except.error (VError.jwtError ("Failed to fetch JWKS: " ++ m)), fetchCount + 1)
  | .httpErr s => (Except.error (VError.httpStatusError s), fetchCount + 1)
  | .ok d => (Except.ok d, fetchCount + 1)

/-- Embedding of `OIDCTokenValidator._get_jwks`: serve the cached document
when not forced, present (a literally empty JSON object is falsy and also
refetched; the embedding's `Option` carries only present documents) and
younger than `cache_ttl`; otherwise fetch and, only on success, replace the
cache and timestamp. -/
def get_jwks (st : JwksState) (now cache_ttl : ℚ) (force_refresh : Bool)
    (fetch : Nat → FetchOutcome) (fetchCount : Nat) :
    Except VError JwksDoc × JwksState × Nat :=
  match st.jwks_cache with
  | some d =>
      if !force_refresh && (now - st.jwks_fetched_at < cache_ttl) then
        (Except.ok d, st, fetchCount)
      else
        (match fetch_jwks fetch fetchCount with
         | (Except.ok d', fc') => (Except.ok d', ⟨some d', now⟩, fc')
         | (Except.error e, fc') => (Except.error e, st, fc'))
  | none =>
      (match fetch_jwks fetch fetchCount with
       | (Except.ok d', fc') => (Except.ok d', ⟨some d', now⟩, fc')
       | (Except.error e, fc') => (Except.error e, st, fc'))

/-- Embedding of `OIDCTokenValidator._get_key`: look the `kid` up in the
(possibly refreshed) key set; on a miss force exactly one refresh and retry;
if still missing raise `JWTError("Public key with kid '...' not found.")`. -/
def get_key (st : JwksState) (now cache_ttl : ℚ) (kid : String)
    (fetch : Nat → FetchOutcome) (fetchCount : Nat) :
    Except VError Jwk × JwksState × Nat :=
  match get_jwks st now cache_ttl false fetch fetchCount with
  | (Except.error e, st', fc') => (Except.error e, st', fc')
  | (Except.ok d, st', fc') =>
      match findKid d kid with
      | some k => (Except.ok k, st', fc')
      | none =>
          match get_jwks st' now cache_ttl true fetch fc' with
          | (Except.error e, st'', fc'') => (Except.error e, st'', fc'')
          | (Except.ok d2, st'', fc'') =>
              match findKid d2 kid with
              | some k => (Except.ok k, st'', fc'')
              | none =>
                  (Except.error (VError.jwtError
                    ("Public key with kid " ++ squote ++ kid ++ squote ++ " not found.")),
                   st'', fc'')

/-- The unverified JWT header, reduced to the one field `validate_token`
reads: `kid`. -/
structure JwtHeader where
  kid : Option String

/-- Wrapping applied by the `except JWTError` handler of `validate_token`:
only `JWTError` values are caught and re-raised with the prefix. -/
def wrapJwtError : VError → VError
  | .jwtError m => .jwtError ("Token validation failed: " ++ m)
  | e => e

/-- Embedding of `OIDCTokenValidator.validate_token`.  The jose calls are
oracles: `parseHeader` is the outcome of `jwt.get_unverified_header(token)`
(its `JWTError` message on failure), `decodeJwt` the outcome of
`jwt.decode(token, key, RS256, audience, issuer)` given the resolved key.
A falsy `kid` (absent or empty) raises before any key resolution. -/
def validate_token (parseHeader : Except String JwtHeader)
    (st : JwksState) (now cache_ttl : ℚ) (fetch : Nat → FetchOutcome)
    (fetchCount : Nat) (decodeJwt : Jwk → Except String Dict) :
    Except VError Dict × JwksState × Nat :=
  match parseHeader with
  | Except.error m =>
      (Except.error (VError.jwtError ("Token validation failed: " ++ m)), st, fetchCount)
  | Except.ok header =>
      if !(strTruthy header.kid) then
        (Except.error (wrapJwtError (VError.jwtError ("Missing " ++ squote ++ "kid"
          ++ squote ++ " in token header."))), st, fetchCount)
      else
        match get_key st now cache_ttl (header.kid.getD "") fetch fetchCount with
        | (Except.error e, st', fc') => (Except.error (wrapJwtError e), st', fc')
        | (Except.ok key, st', fc') =>
            match decodeJwt key with
            | Except.error m =>
                (Except.error (VError.jwtError ("Token validation failed: " ++ m)), st', fc')
            | Except.ok payload => (Except.ok payload, st', fc')

/-- A concrete client configuration with no userinfo endpoint, used by the
concrete-input theorems. -/
def cfgEx : OIDCConfig :=
  ⟨"cid", "sec", "http://app/cb", "http://idp/token", "http://idp/auth",
   "openid profile email", none, true⟩

/-- C9: a client constructed without a userinfo endpoint fails
`get_user_info` with the configuration error
`ValueError("User info endpoint not configured")` for every access token,
and the request log is empty: no HTTP request is issued (the HTTP oracle is
never consulted). -/
theorem c9_user_info_requires_endpoint (cfg : OIDCConfig)
    (h : cfg.user_info_endpoint = none) (access_token : String)
    (getHttp : String → Dict → HttpResponse) :
    get_user_info cfg access_token getHttp =
      (Except.error (ClientError.valueError "User info endpoint not configured"), []) := by
  unfold get_user_info
  rw [h]
  rfl

/-- Concrete instance of `c9_user_info_requires_endpoint`. -/
theorem c9_user_info_requires_endpoint_witness :
    get_user_info cfgEx "tok123" (fun _ _ => ⟨200, [("sub", "alice")]⟩) =
      (Except.error (ClientError.valueError "User info endpoint not configured"), []) :=
  c9_user_info_requires_endpoint cfgEx rfl "tok123" _

/-- Message of the error raised by `validate_token` for a parseable header
with a falsy `kid`, after the `except JWTError` wrapping. -/
def missingKidMsg : String :=
  "Token validation failed: Missing " ++ squote ++ "kid" ++ squote ++ " in token header."

/-- C8: a token whose header parses but carries no `kid` fails with the
malformed-token error, the validator state and fetch counter are returned
unchanged (no key resolution is attempted), and the decode oracle is
irrelevant (no signature verification is attempted). -/
theorem c8_missing_kid_fails (header : JwtHeader) (hkid : header.kid = none)
    (st : JwksState) (now cache_ttl : ℚ) (fetch : Nat → FetchOutcome)
    (fetchCount : Nat) (decodeJwt : Jwk → Except String Dict) :
    validate_token (Except.ok header) st now cache_ttl fetch fetchCount decodeJwt =
      (Except.error (VError.jwtError missingKidMsg), st, fetchCount) := by
  rcases header with ⟨kid⟩
  simp only [JwtHeader.kid] at hkid
  subst hkid
  rfl

/-- Concrete instance of `c8_missing_kid_fails`. -/
theorem c8_missing_kid_fails_witness :
    validate_token (Except.ok ⟨none⟩) ⟨none, 0⟩ 0 3600
      (fun _ => FetchOutcome.ok ⟨[]⟩) 0 (fun _ => Except.ok []) =
      (Except.error (VError.jwtError missingKidMsg), ⟨none, 0⟩, 0) :=
  c8_missing_kid_fails ⟨none⟩ rfl ⟨none, 0⟩ 0 3600 _ 0 _

/-- The provider response the C6 counterexample exchanges against: a 200
status whose JSON body is an OAuth error object. -/
def postInvalidGrant : Dict → HttpResponse :=
  fun _ => ⟨200, [("error", "invalid_grant")]⟩

/-- C6 counterexample: against a provider that answers HTTP 200 with body
containing the field `error = invalid_grant`, `exchange_code_for_token`
returns that body as the token bundle instead of raising: the claim that a
provider `error` field in the body raises a token-exchange error is false
on the code, which never inspects the body. -/
theorem c6_error_body_counterexample :
    (exchange_code_for_token cfgEx "badcode" none emptyCache 0 postInvalidGrant).1 =
        Except.ok [("error", "invalid_grant")]
      ∧ List.lookup "error" [("error", "invalid_grant")] = some "invalid_grant" :=
  ⟨rfl, rfl⟩

/-- C6 amended: `exchange_code_for_token` decides success purely on the
HTTP status: every non-2xx response raises the status error
(`raise_for_status`), and every 2xx response is returned as the token
bundle without any inspection of the body, even when the body carries an
`error` field. -/
theorem c6_exchange_status_only (cfg : OIDCConfig) (code : String)
    (state : Option String) (c : CacheState) (now : ℚ)
    (post : Dict → HttpResponse) :
    (isSuccess (post (exchangeRequestData cfg code state c now).1).status = true →
      (exchange_code_for_token cfg code state c now post).1 =
        Except.ok (post (exchangeRequestData cfg code state c now).1).body)
    ∧ (isSuccess (post (exchangeRequestData cfg code state c now).1).status = false →
      (exchange_code_for_token cfg code state c now post).1 =
        Except.error (ClientError.httpStatusError
          (post (exchangeRequestData cfg code state c now).1).status)) := by
  unfold exchange_code_for_token
  constructor
  · intro h
    simp [h]
  · intro h
    simp [h]

/-- Concrete instance of `c6_exchange_status_only`. -/
theorem c6_exchange_status_only_witness :
    (exchange_code_for_token cfgEx "goodcode" none emptyCache 0
        (fun _ => ⟨400, [("error", "invalid_request")]⟩)).1 =
      Except.error (ClientError.httpStatusError 400) :=
  (c6_exchange_status_only cfgEx "goodcode" none emptyCache 0
    (fun _ => ⟨400, [("error", "invalid_request")]⟩)).2 rfl

/-- C3: with PKCE enabled and a state for which no verifier is retrievable
(unknown or expired), `exchange_code_for_token` does not fail for that
reason: the posted form body carries no `code_verifier` field, and the
provider's 2xx response is returned. -/
theorem c3_missing_verifier_nonfatal (cfg : OIDCConfig) (code s : String)
    (c : CacheState) (now : ℚ) (hpkce : cfg.use_pkce = true) (hs : s ≠ "")
    (hmiss : (retrieve_pkce_verifier c s now).1 = none) :
    List.lookup "code_verifier" (exchangeRequestData cfg code (some s) c now).1 = none
    ∧ ∀ post : Dict → HttpResponse,
        isSuccess (post (exchangeRequestData cfg code (some s) c now).1).status = true →
        (exchange_code_for_token cfg code (some s) c now post).1 =
          Except.ok (post (exchangeRequestData cfg code (some s) c now).1).body := by
  have hst : strTruthy (some s) = true := by
    simp [strTruthy, hs]
  rcases hr : retrieve_pkce_verifier c s now with ⟨v, c2⟩
  have hv : v = none := by
    rw [hr] at hmiss
    exact hmiss
  subst hv
  have hdata : exchangeRequestData cfg code (some s) c now =
      ([("grant_type", "authorization_code"), ("code", code),
        ("client_id", cfg.client_id), ("client_secret", cfg.client_secret),
        ("redirect_uri", cfg.redirect_uri), ("scope", cfg.scope)], c2) := by
    unfold exchangeRequestData
    rw [hpkce, hst]
    simp only [Bool.and_self, if_true, Option.getD_some, hr]
    rfl
  refine ⟨?_, ?_⟩
  · rw [hdata]
    rfl
  · intro post h
    unfold exchange_code_for_token
    rcases hd : exchangeRequestData cfg code (some s) c now with ⟨d, c3⟩
    rw [hd] at h
    simp only [h, if_true]

/-- Concrete instance of `c3_missing_verifier_nonfatal`: empty store, so no
verifier is retrievable for the state. -/
theorem c3_missing_verifier_nonfatal_witness :
    List.lookup "code_verifier"
        (exchangeRequestData cfgEx "code1" (some "s1") emptyCache 0).1 = none
    ∧ (exchange_code_for_token cfgEx "code1" (some "s1") emptyCache 0
        (fun _ => ⟨200, [("access_token", "at1")]⟩)).1 =
        Except.ok [("access_token", "at1")] := by
  have h := c3_missing_verifier_nonfatal cfgEx "code1" "s1" emptyCache 0 rfl
    (by decide) rfl
  exact ⟨h.1, h.2 _ rfl⟩

/-- Every character produced by the base64url alphabet lookup belongs to
the alphabet or is the default `A`; in particular it is never `=`. -/
theorem b64Char_mem (n : Nat) : b64Char n ∈ b64Alphabet.data := by
  unfold b64Char
  rcases Nat.lt_or_ge n b64Alphabet.data.length with h | h
  · rw [List.getD_eq_getElem _ _ h]
    exact List.getElem_mem h
  · rw [List.getD_eq_default _ _ h]
    decide

/-- A base64url alphabet character is never the padding character. -/
theorem b64Char_ne_pad (n : Nat) : (b64Char n == '=') = false := by
  have hall : ∀ c ∈ b64Alphabet.data, (c == '=') = false := by decide
  exact hall _ (b64Char_mem n)

/-- The encoding with no input is empty. -/
theorem b64urlNoPad_nil : b64urlNoPad [] = "" := rfl

/-- The unpadded encoding of a nonempty byte string is nonempty. -/
theorem b64urlNoPad_ne_nil : ∀ (a : Byte) (bs : List Byte),
    (b64urlNoPad (a :: bs)).data ≠ []
  | _, [] => by simp [b64urlNoPad]
  | _, [_] => by simp [b64urlNoPad]
  | _, _ :: _ :: _ => by simp [b64urlNoPad, String.data_append]

/-- Stripping the trailing padding of `base64.urlsafe_b64encode` output
(viewed from the reversed character list) yields exactly the unpadded
encoding. -/
theorem dropWhile_pad_noPad : ∀ bs : List Byte,
    (b64urlEncode bs).data.reverse.dropWhile (fun c => c == '=') =
      (b64urlNoPad bs).data.reverse
  | [] => rfl
  | [a] => by
      simp [b64urlEncode, b64urlNoPad, List.dropWhile, b64Char_ne_pad]
  | [a, b] => by
      simp [b64urlEncode, b64urlNoPad, List.dropWhile, b64Char_ne_pad]
  | a :: b :: c :: rest => by
      have ih := dropWhile_pad_noPad rest
      show ((((⟨[b64Char (a.val / 4), b64Char (a.val % 4 * 16 + b.val / 16),
         b64Char (b.val % 16 * 4 + c.val / 64), b64Char (c.val % 64)]⟩ : String)
        ++ b64urlEncode rest).data).reverse).dropWhile (fun ch => ch == '=') =
        (((⟨[b64Char (a.val / 4), b64Char (a.val % 4 * 16 + b.val / 16),
         b64Char (b.val % 16 * 4 + c.val / 64), b64Char (c.val % 64)]⟩ : String)
        ++ b64urlNoPad rest).data).reverse
      rw [String.data_append, String.data_append, List.reverse_append,
        List.reverse_append, List.dropWhile_append, ih]
      rcases hrest : (b64urlNoPad rest).data with _ | ⟨x, xs⟩
      · simp [List.dropWhile, b64Char_ne_pad]
      · simp [List.dropWhile, b64Char_ne_pad]

/-- `rstrip("=")` of the padded urlsafe encoding equals the unpadded
encoding: the composition the source uses computes exactly
`base64url-no-pad`. -/
theorem rstripEq_b64urlEncode (bs : List Byte) :
    rstripEq (b64urlEncode bs) = b64urlNoPad bs := by
  unfold rstripEq
  rw [dropWhile_pad_noPad bs, List.reverse_reverse]

/-- Character count of the unpadded encoding, as a function of the byte
count. -/
theorem b64urlNoPad_length : ∀ bs : List Byte,
    (b64urlNoPad bs).data.length = b64NoPadLen bs.length
  | [] => rfl
  | [_] => rfl
  | [_, _] => rfl
  | a :: b :: c :: rest => by
      have ih := b64urlNoPad_length rest
      show ((⟨[b64Char (a.val / 4), b64Char (a.val % 4 * 16 + b.val / 16),
         b64Char (b.val % 16 * 4 + c.val / 64), b64Char (c.val % 64)]⟩ : String)
        ++ b64urlNoPad rest).data.length = b64NoPadLen (a :: b :: c :: rest).length
      rw [String.data_append, List.length_append]
      show 4 + (b64urlNoPad rest).data.length = b64NoPadLen (rest.length + 3)
      rw [ih]
      rfl

/-- Length of `secrets.token_urlsafe` output in characters. -/
theorem token_urlsafe_length (bs : List Byte) :
    (token_urlsafe bs).length = b64NoPadLen bs.length := by
  unfold token_urlsafe
  rw [rstripEq_b64urlEncode bs]
  exact b64urlNoPad_length bs

/-- C2: for every PKCE pair generated from 64 random bytes, the challenge
is exactly the unpadded base64url encoding of the SHA-256 digest of the
verifier's ASCII bytes, and the verifier length (86 characters) lies in the
`[43, 128]` window. -/
theorem c2_pkce_pair_spec (sha256 : List Byte → List Byte)
    (randomBytes : List Byte) (hlen : randomBytes.length = 64) :
    (generate_pkce_pair sha256 randomBytes).2 =
      b64urlNoPad (sha256 (asciiBytes (generate_pkce_pair sha256 randomBytes).1))
    ∧ 43 ≤ (generate_pkce_pair sha256 randomBytes).1.length
    ∧ (generate_pkce_pair sha256 randomBytes).1.length ≤ 128 := by
  have hv : (generate_pkce_pair sha256 randomBytes).1.length = 86 := by
    show (token_urlsafe randomBytes).length = 86
    rw [token_urlsafe_length randomBytes, hlen]
    decide
  refine ⟨?_, ?_, ?_⟩
  · exact rstripEq_b64urlEncode _
  · rw [hv]
    decide
  · rw [hv]
    decide

/-- Concrete instance of `c2_pkce_pair_spec` on an all-zero byte string and
a constant digest oracle. -/
theorem c2_pkce_pair_spec_witness :
    (generate_pkce_pair (fun _ => List.replicate 32 0) (List.replicate 64 0)).2 =
      b64urlNoPad ((fun (_ : List Byte) => List.replicate 32 (0 : Byte))
        (asciiBytes
          (generate_pkce_pair (fun _ => List.replicate 32 0) (List.replicate 64 0)).1))
    ∧ 43 ≤ (generate_pkce_pair (fun _ => List.replicate 32 0)
        (List.replicate 64 0)).1.length
    ∧ (generate_pkce_pair (fun _ => List.replicate 32 0)
        (List.replicate 64 0)).1.length ≤ 128 :=
  c2_pkce_pair_spec (fun _ => List.replicate 32 0) (List.replicate 64 0) (by decide)

/-- The `pkce:` key derivation is injective in the state. -/
theorem pkceKey_inj {s1 s2 : String} (h : pkceKey s1 = pkceKey s2) : s1 = s2 := by
  have hd : ("pkce:" ++ s1).data = ("pkce:" ++ s2).data := congrArg String.data h
  rw [String.data_append, String.data_append] at hd
  have := List.append_cancel_left hd
  cases s1
  cases s2
  exact congrArg String.mk this

/-- The lazy sweep keeps an entry whose expiry lies in the future. -/
theorem cleanup_keeps (c : CacheState) (t : ℚ) (k : String) (v : String)
    (e : ℚ) (hc : c k = some (v, e)) (ht : t < e) :
    InMemoryCache.cleanupExpired c t k = some (v, e) := by
  unfold InMemoryCache.cleanupExpired
  rw [hc]
  simp [ht]

/-- The lazy sweep maps an absent key to an absent key. -/
theorem cleanup_none (c : CacheState) (t : ℚ) (k : String)
    (hc : c k = none) : InMemoryCache.cleanupExpired c t k = none := by
  unfold InMemoryCache.cleanupExpired
  rw [hc]

/-- A live PKCE entry survives any PKCE-store operation that is neither a
store nor a retrieve for its state and runs before its expiry. -/
theorem pkce_entry_preserved (c : CacheState) (s v : String) (e : ℚ)
    (hc : c (pkceKey s) = some (v, e)) (op : PkceOp)
    (hnotstore : ¬ isStoreFor s op) (hnotret : ¬ isRetrieveFor s op)
    (htime : pkceOpTime op < e) :
    stepPkce c op (pkceKey s) = some (v, e) := by
  cases op with
  | opStore s2 v2 t =>
      have hne : pkceKey s ≠ pkceKey s2 := fun hk =>
        hnotstore (pkceKey_inj hk).symm
      show store_pkce_verifier c s2 v2 t (pkceKey s) = some (v, e)
      unfold store_pkce_verifier InMemoryCache.set
      simp only [hne, if_neg]
      exact cleanup_keeps c t (pkceKey s) v e hc htime
  | opRetrieve s2 t =>
      have hne : pkceKey s ≠ pkceKey s2 := fun hk =>
        hnotret (pkceKey_inj hk).symm
      show (retrieve_pkce_verifier c s2 t).2 (pkceKey s) = some (v, e)
      unfold retrieve_pkce_verifier InMemoryCache.pop
      have hkeep := cleanup_keeps c t (pkceKey s) v e hc htime
      rcases h2 : InMemoryCache.cleanupExpired c t (pkceKey s2) with _ | ⟨v2, e2⟩
      · simp only [h2]
        exact hkeep
      · simp only [h2, hne, if_neg]
        exact hkeep

/-- An absent PKCE entry stays absent under any PKCE-store operation that
is not a store for its state (retrieves of the same state included). -/
theorem pkce_absent_preserved (c : CacheState) (s : String)
    (hc : c (pkceKey s) = none) (op : PkceOp)
    (hnotstore : ¬ isStoreFor s op) :
    stepPkce c op (pkceKey s) = none := by
  cases op with
  | opStore s2 v2 t =>
      have hne : pkceKey s ≠ pkceKey s2 := fun hk =>
        hnotstore (pkceKey_inj hk).symm
      show store_pkce_verifier c s2 v2 t (pkceKey s) = none
      unfold store_pkce_verifier InMemoryCache.set
      simp only [hne, if_neg]
      exact cleanup_none c t (pkceKey s) hc
  | opRetrieve s2 t =>
      show (retrieve_pkce_verifier c s2 t).2 (pkceKey s) = none
      unfold retrieve_pkce_verifier InMemoryCache.pop
      have hgone := cleanup_none c t (pkceKey s) hc
      rcases h2 : InMemoryCache.cleanupExpired c t (pkceKey s2) with _ | ⟨v2, e2⟩
      · simp only [h2]
        exact hgone
      · simp only [h2]
        by_cases hke : pkceKey s = pkceKey s2
        · simp [hke]
        · simp only [hke, if_neg]
          exact hgone

/-- A live PKCE entry survives a whole trace of PKCE-store operations none
of which touches its state, all running before its expiry. -/
theorem runPkce_entry_preserved (ops : List PkceOp) (c : CacheState)
    (s v : String) (e : ℚ) (hc : c (pkceKey s) = some (v, e))
    (hops : ∀ op ∈ ops, ¬ isStoreFor s op ∧ ¬ isRetrieveFor s op ∧
      pkceOpTime op < e) :
    runPkce c ops (pkceKey s) = some (v, e) := by
  induction ops generalizing c with
  | nil => exact hc
  | cons op rest ih =>
      have hop := hops op (List.mem_cons_self op rest)
      have hstep := pkce_entry_preserved c s v e hc op hop.1 hop.2.1 hop.2.2
      exact ih (stepPkce c op) hstep
        (fun o ho => hops o (List.mem_cons_of_mem op ho))

/-- An absent PKCE entry stays absent across a whole trace of PKCE-store
operations containing no store for its state. -/
theorem runPkce_absent_preserved (ops : List PkceOp) (c : CacheState)
    (s : String) (hc : c (pkceKey s) = none)
    (hops : ∀ op ∈ ops, ¬ isStoreFor s op) :
    runPkce c ops (pkceKey s) = none := by
  induction ops generalizing c with
  | nil => exact hc
  | cons op rest ih =>
      have hstep := pkce_absent_preserved c s hc op
        (hops op (List.mem_cons_self op rest))
      exact ih (stepPkce c op) hstep
        (fun o ho => hops o (List.mem_cons_of_mem op ho))

/-- Storing writes the entry with absolute expiry `now + 600`. -/
theorem store_pkce_entry (c : CacheState) (s v : String) (t : ℚ) :
    store_pkce_verifier c s v t (pkceKey s) = some (v, t + PKCE_TTL_SECONDS) := by
  unfold store_pkce_verifier InMemoryCache.set
  simp

/-- Popping a live entry returns its value and removes it. -/
theorem retrieve_hit (c : CacheState) (s v : String) (e t : ℚ)
    (hc : c (pkceKey s) = some (v, e)) (ht : t < e) :
    (retrieve_pkce_verifier c s t).1 = some v
    ∧ (retrieve_pkce_verifier c s t).2 (pkceKey s) = none := by
  unfold retrieve_pkce_verifier InMemoryCache.pop
  have hkeep := cleanup_keeps c t (pkceKey s) v e hc ht
  simp only [hkeep]
  simp [ht]

/-- Popping an absent key returns `None`. -/
theorem retrieve_miss (c : CacheState) (s : String) (t : ℚ)
    (hc : c (pkceKey s) = none) :
    (retrieve_pkce_verifier c s t).1 = none := by
  unfold retrieve_pkce_verifier InMemoryCache.pop
  have hgone := cleanup_none c t (pkceKey s) hc
  simp only [hgone]

/-- C1: after `store(s, v)`, the first `retrieve(s)` — run before the
600-second TTL elapses, with no intervening store or retrieve for `s`
(other states may be stored and retrieved freely before the expiry) —
returns `v`; and after that first retrieve, every subsequent `retrieve(s)`
returns `None` across any further trace containing no store for `s`: the
verifier is retrievable exactly once. -/
theorem c1_pkce_retrievable_exactly_once (c : CacheState) (s v : String)
    (t0 t1 : ℚ) (ops : List PkceOp)
    (hops : ∀ op ∈ ops, ¬ isStoreFor s op ∧ ¬ isRetrieveFor s op ∧
      pkceOpTime op < t0 + PKCE_TTL_SECONDS)
    (ht1 : t1 < t0 + PKCE_TTL_SECONDS) :
    (retrieve_pkce_verifier (runPkce (store_pkce_verifier c s v t0) ops) s t1).1 =
      some v
    ∧ ∀ ops2 : List PkceOp, (∀ op ∈ ops2, ¬ isStoreFor s op) → ∀ t2 : ℚ,
        (retrieve_pkce_verifier (runPkce
          (retrieve_pkce_verifier (runPkce (store_pkce_verifier c s v t0) ops) s t1).2
          ops2) s t2).1 = none := by
  have hstore := store_pkce_entry c s v t0
  have hrun := runPkce_entry_preserved ops _ s v _ hstore hops
  have hret := retrieve_hit _ s v _ t1 hrun ht1
  refine ⟨hret.1, ?_⟩
  intro ops2 hops2 t2
  have habs := runPkce_absent_preserved ops2 _ s hret.2 hops2
  exact retrieve_miss _ s t2 habs

/-- Concrete instance of `c1_pkce_retrievable_exactly_once`: store at time
0, first retrieve at time 10 yields the verifier, second retrieve at time
20 yields `None`. -/
theorem c1_pkce_retrievable_exactly_once_witness :
    (retrieve_pkce_verifier (runPkce (store_pkce_verifier emptyCache "s1" "v1" 0) [])
      "s1" 10).1 = some "v1"
    ∧ (retrieve_pkce_verifier (runPkce
        (retrieve_pkce_verifier
          (runPkce (store_pkce_verifier emptyCache "s1" "v1" 0) []) "s1" 10).2
        []) "s1" 20).1 = none := by
  have h := c1_pkce_retrievable_exactly_once emptyCache "s1" "v1" 0 10 []
    (by intro op hop; cases hop) (by norm_num [PKCE_TTL_SECONDS])
  exact ⟨h.1, h.2 [] (by intro op hop; cases hop) 20⟩

/-- Every construction after the first returns the instance stored in the
class attribute. -/
theorem runNews_all_first (fs : List Nat) (r : Nat) :
    (runNews (some r) fs).1 = List.replicate fs.length r
    ∧ (runNews (some r) fs).2 = some r := by
  induction fs with
  | nil => exact ⟨rfl, rfl⟩
  | cons f rest ih =>
      refine ⟨?_, ih.2⟩
      show r :: (runNews (some r) rest).1 = List.replicate (rest.length + 1) r
      rw [ih.1]
      rfl

/-- Setting a key writes the entry with absolute expiry `now + ttl`. -/
theorem cache_set_self (c : CacheState) (k v : String) (ttl now : ℚ) :
    InMemoryCache.set c k v ttl now k = some (v, now + ttl) := by
  unfold InMemoryCache.set
  simp

/-- Popping a live entry returns its value and removes it (instance-level
form of `retrieve_hit`). -/
theorem cache_pop_hit (c : CacheState) (k v : String) (e t : ℚ)
    (hc : c k = some (v, e)) (ht : t < e) :
    (InMemoryCache.pop c k t).1 = some v
    ∧ (InMemoryCache.pop c k t).2 k = none := by
  unfold InMemoryCache.pop
  have hkeep := cleanup_keeps c t k v e hc ht
  simp only [hkeep]
  simp [ht]

/-- Popping an absent key returns `None`. -/
theorem cache_pop_miss (c : CacheState) (k : String) (t : ℚ)
    (hc : c k = none) : (InMemoryCache.pop c k t).1 = none := by
  unfold InMemoryCache.pop
  have hgone := cleanup_none c t k hc
  simp only [hgone]

/-- C10: the `InMemoryCache.__new__` singleton makes every construction in
the process return the same instance: starting from an unset class
attribute, a trace of constructions returns the first-allocated object id
to every caller; consequently a PKCE `set` performed through one handle is
observed by `pop` through any other handle (same backing store in the
heap), and the popped entry is gone for every later handle — the one-time
guarantee holds process-wide. -/
theorem c10_singleton_shared_store (f1 : Nat) (fs : List Nat) (f2 f3 : Nat)
    (h : Heap) (k v : String) (t0 t1 t2 : ℚ)
    (ht1 : t1 < t0 + 600) :
    (runNews none (f1 :: fs)).1 = List.replicate (fs.length + 1) f1
    ∧ (newInstance (runNews none (f1 :: fs)).2 f2).1 = f1
    ∧ (popThrough
        (setThrough h (newInstance (runNews none (f1 :: fs)).2 f2).1 k v 600 t0)
        (newInstance (runNews none (f1 :: fs)).2 f3).1 k t1).1 = some v
    ∧ (popThrough
        (popThrough
          (setThrough h (newInstance (runNews none (f1 :: fs)).2 f2).1 k v 600 t0)
          (newInstance (runNews none (f1 :: fs)).2 f3).1 k t1).2
        (newInstance (runNews none (f1 :: fs)).2 f2).1 k t2).1 = none := by
  have hrun := runNews_all_first fs f1
  have hcs : (runNews none (f1 :: fs)).2 = some f1 := hrun.2
  have hh : setThrough h f1 k v 600 t0 f1 = InMemoryCache.set (h f1) k v 600 t0 := by
    unfold setThrough
    simp
  have hhit := cache_pop_hit (InMemoryCache.set (h f1) k v 600 t0) k v (t0 + 600) t1
    (cache_set_self (h f1) k v 600 t0) ht1
  refine ⟨?_, ?_, ?_, ?_⟩
  · show f1 :: (runNews (some f1) fs).1 = List.replicate (fs.length + 1) f1
    rw [hrun.1]
    rfl
  · rw [hcs]
    rfl
  · rw [hcs]
    show (InMemoryCache.pop (setThrough h f1 k v 600 t0 f1) k t1).1 = some v
    rw [hh]
    exact hhit.1
  · rw [hcs]
    show (InMemoryCache.pop
      ((popThrough (setThrough h f1 k v 600 t0) f1 k t1).2 f1) k t2).1 = none
    have hh2 : (popThrough (setThrough h f1 k v 600 t0) f1 k t1).2 f1 =
        (InMemoryCache.pop (setThrough h f1 k v 600 t0 f1) k t1).2 := by
      unfold popThrough
      simp
    rw [hh2, hh]
    exact cache_pop_miss _ k t2 hhit.2

/-- Concrete instance of `c10_singleton_shared_store`: three constructions
with distinct candidate object ids, a set through the second handle, pops
through the third and second handles. -/
theorem c10_singleton_shared_store_witness :
    (runNews none [7, 8]).1 = List.replicate 2 7
    ∧ (newInstance (runNews none [7, 8]).2 9).1 = 7
    ∧ (popThrough
        (setThrough (fun _ => emptyCache) (newInstance (runNews none [7, 8]).2 9).1
          "pkce:s1" "v1" 600 0)
        (newInstance (runNews none [7, 8]).2 11).1 "pkce:s1" 10).1 = some "v1"
    ∧ (popThrough
        (popThrough
          (setThrough (fun _ => emptyCache) (newInstance (runNews none [7, 8]).2 9).1
            "pkce:s1" "v1" 600 0)
          (newInstance (runNews none [7, 8]).2 11).1 "pkce:s1" 10).2
        (newInstance (runNews none [7, 8]).2 9).1 "pkce:s1" 20).1 = none :=
  c10_singleton_shared_store 7 [8] 9 11 (fun _ => emptyCache) "pkce:s1" "v1" 0 10 20
    (by norm_num)

/-- A fresh cached document is served without fetching. -/
theorem get_jwks_fresh (st : JwksState) (now cache_ttl : ℚ)
    (fetch : Nat → FetchOutcome) (fc : Nat) (d : JwksDoc)
    (hc : st.jwks_cache = some d) (hfresh : now - st.jwks_fetched_at < cache_ttl) :
    get_jwks st now cache_ttl false fetch fc = (Except.ok d, st, fc) := by
  unfold get_jwks
  rw [hc]
  simp [hfresh]

/-- Whenever the cache cannot be served (forced, empty, or expired),
`_get_jwks` performs exactly one fetch: success replaces the cache wholesale
and resets the timestamp, failure raises and leaves the state untouched. -/
theorem get_jwks_fetches (st : JwksState) (now cache_ttl : ℚ)
    (force_refresh : Bool) (fetch : Nat → FetchOutcome) (fc : Nat)
    (hbranch : force_refresh = true ∨ st.jwks_cache = none ∨
      ¬(now - st.jwks_fetched_at < cache_ttl)) :
    get_jwks st now cache_ttl force_refresh fetch fc =
      (match fetch fc with
       | FetchOutcome.netErr m =>
          (Except.error (VError.jwtError ("Failed to fetch JWKS: " ++ m)), st, fc + 1)
       | FetchOutcome.httpErr s =>
          (Except.error (VError.httpStatusError s), st, fc + 1)
       | FetchOutcome.ok d => (Except.ok d, ⟨some d, now⟩, fc + 1)) := by
  unfold get_jwks fetch_jwks
  rcases hc : st.jwks_cache with _ | d
  · cases fetch fc <;> rfl
  · have hcond : (!force_refresh && decide (now - st.jwks_fetched_at < cache_ttl)) = false := by
      rcases hbranch with hb | hb | hb
      · rw [hb]
        rfl
      · rw [hb] at hc
        cases hc
      · simp [hb]
    rw [hcond]
    simp only [Bool.false_eq_true, if_false]
    cases fetch fc <;> rfl

/-- `_get_jwks` performs at most one fetch. -/
theorem get_jwks_count (st : JwksState) (now cache_ttl : ℚ)
    (force_refresh : Bool) (fetch : Nat → FetchOutcome) (fc : Nat) :
    (get_jwks st now cache_ttl force_refresh fetch fc).2.2 ≤ fc + 1 := by
  unfold get_jwks fetch_jwks
  rcases st.jwks_cache with _ | d
  · cases fetch fc <;> simp
  · rcases hcond : (!force_refresh && decide (now - st.jwks_fetched_at < cache_ttl)) with _ | _
    · simp only [Bool.false_eq_true, if_false]
      cases fetch fc <;> simp
    · simp

/-- C4: a `_get_key` lookup performs at most two fetches in every case (so
at most one forced refresh, never an unbounded retry); and from a fresh
cache: a hit is served with no fetch at all, while a miss triggers exactly
one (forced) fetch, after which a hit in the refreshed key set succeeds and
a remaining miss raises the key-not-found `JWTError`. -/
theorem c4_get_key_one_forced_refresh (st : JwksState) (now cache_ttl : ℚ)
    (kid : String) (fetch : Nat → FetchOutcome) (fc : Nat) :
    (get_key st now cache_ttl kid fetch fc).2.2 ≤ fc + 2
    ∧ ∀ d, st.jwks_cache = some d → now - st.jwks_fetched_at < cache_ttl →
        (∀ k, findKid d kid = some k →
          get_key st now cache_ttl kid fetch fc = (Except.ok k, st, fc))
        ∧ (findKid d kid = none →
            (get_key st now cache_ttl kid fetch fc).2.2 = fc + 1
            ∧ ∀ d2, fetch fc = FetchOutcome.ok d2 →
                (∀ k2, findKid d2 kid = some k2 →
                  get_key st now cache_ttl kid fetch fc =
                    (Except.ok k2, ⟨some d2, now⟩, fc + 1))
                ∧ (findKid d2 kid = none →
                  get_key st now cache_ttl kid fetch fc =
                    (Except.error (VError.jwtError ("Public key with kid " ++ squote
                      ++ kid ++ squote ++ " not found.")), ⟨some d2, now⟩, fc + 1))) := by
  constructor
  · rcases h1 : get_jwks st now cache_ttl false fetch fc with ⟨r1, st1, fc1⟩
    have hb1 : fc1 ≤ fc + 1 := by
      have hcnt := get_jwks_count st now cache_ttl false fetch fc
      rw [h1] at hcnt
      exact hcnt
    cases r1 with
    | error e =>
        unfold get_key
        simp only [h1]
        omega
    | ok d =>
        unfold get_key
        simp only [h1]
        cases hf : findKid d kid with
        | some k =>
            simp only [hf]
            omega
        | none =>
            simp only [hf]
            rcases h2 : get_jwks st1 now cache_ttl true fetch fc1 with ⟨r2, st2, fc2⟩
            have hb2 : fc2 ≤ fc1 + 1 := by
              have hcnt := get_jwks_count st1 now cache_ttl true fetch fc1
              rw [h2] at hcnt
              exact hcnt
            cases r2 with
            | error e2 =>
                simp only [h2]
                omega
            | ok d2 =>
                simp only [h2]
                cases hf2 : findKid d2 kid with
                | some k2 =>
                    simp only [hf2]
                    omega
                | none =>
                    simp only [hf2]
                    omega
  · intro d hc hfresh
    have h1 := get_jwks_fresh st now cache_ttl fetch fc d hc hfresh
    refine ⟨?_, ?_⟩
    · intro k hk
      unfold get_key
      simp only [h1, hk]
    · intro hmiss
      refine ⟨?_, ?_⟩
      · unfold get_key
        simp only [h1, hmiss]
        cases hfo : fetch fc with
        | netErr m =>
            have h2c : get_jwks st now cache_ttl true fetch fc =
                (Except.error (VError.jwtError ("Failed to fetch JWKS: " ++ m)),
                 st, fc + 1) := by
              have hfe := get_jwks_fetches st now cache_ttl true fetch fc (Or.inl rfl)
              rw [hfo] at hfe
              exact hfe
            simp only [h2c]
        | httpErr s =>
            have h2c : get_jwks st now cache_ttl true fetch fc =
                (Except.error (VError.httpStatusError s), st, fc + 1) := by
              have hfe := get_jwks_fetches st now cache_ttl true fetch fc (Or.inl rfl)
              rw [hfo] at hfe
              exact hfe
            simp only [h2c]
        | ok d2 =>
            have h2c : get_jwks st now cache_ttl true fetch fc =
                (Except.ok d2, (⟨some d2, now⟩ : JwksState), fc + 1) := by
              have hfe := get_jwks_fetches st now cache_ttl true fetch fc (Or.inl rfl)
              rw [hfo] at hfe
              exact hfe
            simp only [h2c]
            cases findKid d2 kid <;> rfl
      · intro d2 hfetch
        have h2c : get_jwks st now cache_ttl true fetch fc =
            (Except.ok d2, (⟨some d2, now⟩ : JwksState), fc + 1) := by
          have hfe := get_jwks_fetches st now cache_ttl true fetch fc (Or.inl rfl)
          rw [hfetch] at hfe
          exact hfe
        refine ⟨?_, ?_⟩
        · intro k2 hk2
          unfold get_key
          simp only [h1, hmiss, h2c, hk2]
        · intro hmiss2
          unfold get_key
          simp only [h1, hmiss, h2c, hmiss2]

/-- Concrete instance of `c4_get_key_one_forced_refresh`: the `kid` appears
only after rotation; a fresh cache misses, one forced refresh succeeds and
the rotated key is returned with exactly one fetch. -/
theorem c4_get_key_one_forced_refresh_witness :
    (get_key ⟨some ⟨[⟨some "k1", "m1"⟩]⟩, 0⟩ 100 3600 "k2"
      (fun _ => FetchOutcome.ok ⟨[⟨some "k2", "m2"⟩]⟩) 0).2.2 ≤ 0 + 2
    ∧ get_key ⟨some ⟨[⟨some "k1", "m1"⟩]⟩, 0⟩ 100 3600 "k2"
        (fun _ => FetchOutcome.ok ⟨[⟨some "k2", "m2"⟩]⟩) 0 =
      (Except.ok ⟨some "k2", "m2"⟩, ⟨some ⟨[⟨some "k2", "m2"⟩]⟩, 100⟩, 0 + 1) := by
  have h := c4_get_key_one_forced_refresh ⟨some ⟨[⟨some "k1", "m1"⟩]⟩, 0⟩ 100 3600
    "k2" (fun _ => FetchOutcome.ok ⟨[⟨some "k2", "m2"⟩]⟩) 0
  refine ⟨h.1, ?_⟩
  have h2 := h.2 ⟨[⟨some "k1", "m1"⟩]⟩ rfl (by norm_num)
  have h3 := (h2.2 rfl).2 ⟨[⟨some "k2", "m2"⟩]⟩ rfl
  exact h3.1 ⟨some "k2", "m2"⟩ rfl

/-- C5 (amended): a failing JWKS fetch raises — a transport error as the
wrapped fetch `JWTError`, a non-2xx status as the propagated HTTP status
error — and leaves the cached keyset and its fetch timestamp unchanged
(atomicity: no partial update); and as long as the cache is within its TTL
a cached `kid` stays resolvable without any fetch.  (When the cache has
expired, a failing fetch fails the lookup even for cached kids: the code
does not serve a stale keyset — see the counterexample.) -/
theorem c5_fetch_failure_atomic (st : JwksState) (now cache_ttl : ℚ)
    (force_refresh : Bool) (fetch : Nat → FetchOutcome) (fc : Nat) (kid : String) :
    (∀ m, fetch fc = FetchOutcome.netErr m →
      (force_refresh = true ∨ st.jwks_cache = none ∨
        ¬(now - st.jwks_fetched_at < cache_ttl)) →
      get_jwks st now cache_ttl force_refresh fetch fc =
        (Except.error (VError.jwtError ("Failed to fetch JWKS: " ++ m)), st, fc + 1))
    ∧ (∀ s, fetch fc = FetchOutcome.httpErr s →
      (force_refresh = true ∨ st.jwks_cache = none ∨
        ¬(now - st.jwks_fetched_at < cache_ttl)) →
      get_jwks st now cache_ttl force_refresh fetch fc =
        (Except.error (VError.httpStatusError s), st, fc + 1))
    ∧ (∀ d k, st.jwks_cache = some d → now - st.jwks_fetched_at < cache_ttl →
      findKid d kid = some k →
      get_key st now cache_ttl kid fetch fc = (Except.ok k, st, fc)) := by
  refine ⟨?_, ?_, ?_⟩
  · intro m hm hbranch
    have hfe := get_jwks_fetches st now cache_ttl force_refresh fetch fc hbranch
    rw [hm] at hfe
    exact hfe
  · intro s hs hbranch
    have hfe := get_jwks_fetches st now cache_ttl force_refresh fetch fc hbranch
    rw [hs] at hfe
    exact hfe
  · intro d k hc hfresh hk
    have h1 := get_jwks_fresh st now cache_ttl fetch fc d hc hfresh
    unfold get_key
    simp only [h1, hk]

/-- Concrete instance of `c5_fetch_failure_atomic`: a transport failure
during a forced refresh raises the wrapped fetch error and leaves the state
untouched, and a cached kid is still served from the fresh cache. -/
theorem c5_fetch_failure_atomic_witness :
    get_jwks ⟨some ⟨[⟨some "k1", "m1"⟩]⟩, 0⟩ 100 3600 true
      (fun _ => FetchOutcome.netErr "connection refused") 0 =
      (Except.error (VError.jwtError "Failed to fetch JWKS: connection refused"),
       ⟨some ⟨[⟨some "k1", "m1"⟩]⟩, 0⟩, 0 + 1)
    ∧ get_key ⟨some ⟨[⟨some "k1", "m1"⟩]⟩, 0⟩ 100 3600 "k1"
        (fun _ => FetchOutcome.netErr "connection refused") 0 =
      (Except.ok ⟨some "k1", "m1"⟩, ⟨some ⟨[⟨some "k1", "m1"⟩]⟩, 0⟩, 0) := by
  have h := c5_fetch_failure_atomic ⟨some ⟨[⟨some "k1", "m1"⟩]⟩, 0⟩ 100 3600 true
    (fun _ => FetchOutcome.netErr "connection refused") 0 "k1"
  exact ⟨h.1 "connection refused" rfl (Or.inl rfl),
    h.2.2 ⟨[⟨some "k1", "m1"⟩]⟩ ⟨some "k1", "m1"⟩ rfl (by norm_num) rfl⟩

/-- C5 counterexample to `previously cached kids remain resolvable from the
stale keyset`: with a cached keyset containing `k1` that has passed its TTL
(fetched at 0, looked up at 4000 with a 3600-second TTL) and a fetch that
fails, `_get_key("k1")` raises the fetch error instead of serving the
stale-but-present key. -/
theorem c5_stale_not_served_counterexample :
    findKid ⟨[⟨some "k1", "m1"⟩]⟩ "k1" = some ⟨some "k1", "m1"⟩
    ∧ get_key ⟨some ⟨[⟨some "k1", "m1"⟩]⟩, 0⟩ 4000 3600 "k1"
        (fun _ => FetchOutcome.netErr "connection refused") 0 =
      (Except.error (VError.jwtError "Failed to fetch JWKS: connection refused"),
       ⟨some ⟨[⟨some "k1", "m1"⟩]⟩, 0⟩, 1) := by
  refine ⟨rfl, ?_⟩
  have hstale : ¬((4000 : ℚ) - 0 < 3600) := by norm_num
  have hfe := get_jwks_fetches ⟨some ⟨[⟨some "k1", "m1"⟩]⟩, 0⟩ 4000 3600 false
    (fun _ => FetchOutcome.netErr "connection refused") 0 (Or.inr (Or.inr hstale))
  unfold get_key
  simp only [hfe]
  rfl

/-- A dictionary write makes the written pair a member. -/
theorem dictSet_mem_self : ∀ (l : Dict) (k v : String), (k, v) ∈ dictSet l k v
  | [], k, v => List.mem_singleton.mpr rfl
  | (k0, v0) :: rest, k, v => by
      unfold dictSet
      by_cases hk : k0 = k
      · subst hk
        rw [if_pos rfl]
        exact List.mem_cons_self _ _
      · rw [if_neg hk]
        exact List.mem_cons_of_mem _ (dictSet_mem_self rest k v)

/-- A dictionary write for a different key preserves membership. -/
theorem dictSet_mem_of_ne : ∀ (l : Dict) (k v k2 v2 : String),
    (k, v) ∈ l → k ≠ k2 → (k, v) ∈ dictSet l k2 v2
  | [], _, _, _, _, hm, _ => absurd hm (List.not_mem_nil _)
  | (k0, v0) :: rest, k, v, k2, v2, hm, hne => by
      unfold dictSet
      rcases List.mem_cons.mp hm with heq | htail
      · injection heq with h1 h2
        subst h1
        subst h2
        rw [if_neg hne]
        exact List.mem_cons_self _ _
      · by_cases hk : k0 = k2
        · rw [if_pos hk]
          exact List.mem_cons_of_mem _ htail
        · rw [if_neg hk]
          exact List.mem_cons_of_mem _ (dictSet_mem_of_ne rest k v k2 v2 htail hne)

/-- Every member pair of a query dictionary shows up in the encoded query
string as the substring `quote(k)=quote(v)`. -/
theorem urlencode_mem_sub : ∀ (l : Dict) (k v : String), (k, v) ∈ l →
    ∃ p q, urlencode l = p ++ (quotePlus k ++ "=" ++ quotePlus v) ++ q
  | [], _, _, hm => absurd hm (List.not_mem_nil _)
  | [kv0], k, v, hm => by
      have heq : kv0 = (k, v) := (List.mem_singleton.mp hm).symm
      subst heq
      refine ⟨"", "", ?_⟩
      simp [urlencode, String.empty_append, String.append_empty]
  | kv0 :: kv1 :: rest, k, v, hm => by
      rcases List.mem_cons.mp hm with heq | htail
      · refine ⟨"", "&" ++ urlencode (kv1 :: rest), ?_⟩
        show quotePlus kv0.1 ++ "=" ++ quotePlus kv0.2 ++ "&" ++ urlencode (kv1 :: rest) = _
        rw [show kv0 = (k, v) from heq.symm]
        simp [String.empty_append, String.append_assoc]
      · obtain ⟨p, q, hpq⟩ := urlencode_mem_sub (kv1 :: rest) k v htail
        refine ⟨quotePlus kv0.1 ++ "=" ++ quotePlus kv0.2 ++ "&" ++ p, q, ?_⟩
        show quotePlus kv0.1 ++ "=" ++ quotePlus kv0.2 ++ "&" ++ urlencode (kv1 :: rest) = _
        rw [hpq]
        simp [String.append_assoc]

/-- Lift a query-string substring occurrence to the full URL. -/
theorem containsSub_of_urlencode (endpoint qs sub : String)
    (h : ∃ p q, qs = p ++ sub ++ q) :
    containsSub (endpoint ++ "?" ++ qs) sub := by
  obtain ⟨p, q, hpq⟩ := h
  refine ⟨endpoint ++ "?" ++ p, q, ?_⟩
  rw [hpq]
  simp [String.append_assoc]

/-- Character count of `token_hex` output: two hex digits per byte. -/
theorem hexEncode_length : ∀ bs : List Byte, (hexEncode bs).length = 2 * bs.length
  | [] => rfl
  | b :: rest => by
      have ih := hexEncode_length rest
      show (hexByteChars b ++ ((rest.map hexByteChars).flatten)).length = 2 * (rest.length + 1)
      rw [List.length_append]
      have h2 : ((rest.map hexByteChars).flatten).length = 2 * rest.length := ih
      rw [h2]
      show 2 + 2 * rest.length = 2 * (rest.length + 1)
      omega

/-- Both characters of a byte's hex rendering are hex digits. -/
theorem hexByteChars_hex (b : Byte) : ∀ c ∈ hexByteChars b, isHexChar c := by
  have hdigit : ∀ n : Fin 16, isHexChar (hexDigitChar n.val) := by decide
  intro c hc
  rcases List.mem_cons.mp hc with h1 | hrest
  · rw [h1]
    exact hdigit ⟨b.val / 16, by omega⟩
  · have h2 : c = hexDigitChar (b.val % 16) := List.mem_singleton.mp hrest
    rw [h2]
    exact hdigit ⟨b.val % 16, Nat.mod_lt _ (by decide)⟩

/-- Every character of `token_hex` output is a hex digit. -/
theorem hexEncode_hex : ∀ bs : List Byte, ∀ c ∈ (hexEncode bs).data, isHexChar c
  | [] => by
      intro c hc
      cases hc
  | b :: rest => by
      intro c hc
      have hsplit : (hexEncode (b :: rest)).data =
          hexByteChars b ++ (hexEncode rest).data := rfl
      rw [hsplit] at hc
      rcases List.mem_append.mp hc with h1 | h2
      · exact hexByteChars_hex b c h1
      · exact hexEncode_hex rest c h2

/-- C7: `build_login_redirect_url` with PKCE enabled and no state supplied
generates a state of exactly 32 lower-case hexadecimal characters from 16
random bytes; the returned URL carries the `code_challenge` and
`code_challenge_method=S256` query parameters; and the matching verifier is
stored under the returned state (with the 600-second TTL) in the cache
state the call returns. -/
theorem c7_build_login_redirect_url (cfg : OIDCConfig)
    (hpkce : cfg.use_pkce = true) (prompt : Option String) (extra_params : Dict)
    (sha256 : List Byte → List Byte) (stateBytes verifierBytes : List Byte)
    (hsb : stateBytes.length = 16) (c : CacheState) (now : ℚ) :
    (build_login_redirect_url cfg none prompt extra_params sha256 stateBytes
      verifierBytes c now).2.1 = token_hex stateBytes
    ∧ (build_login_redirect_url cfg none prompt extra_params sha256 stateBytes
      verifierBytes c now).2.1.length = 32
    ∧ (∀ ch ∈ (build_login_redirect_url cfg none prompt extra_params sha256 stateBytes
      verifierBytes c now).2.1.data, isHexChar ch)
    ∧ containsSub (build_login_redirect_url cfg none prompt extra_params sha256 stateBytes
      verifierBytes c now).1
      ("code_challenge=" ++ quotePlus (generate_pkce_pair sha256 verifierBytes).2)
    ∧ containsSub (build_login_redirect_url cfg none prompt extra_params sha256 stateBytes
      verifierBytes c now).1 "code_challenge_method=S256"
    ∧ (build_login_redirect_url cfg none prompt extra_params sha256 stateBytes
      verifierBytes c now).2.2
      (pkceKey (build_login_redirect_url cfg none prompt extra_params sha256 stateBytes
        verifierBytes c now).2.1) =
      some ((generate_pkce_pair sha256 verifierBytes).1, now + PKCE_TTL_SECONDS) := by
  have hshape : build_login_redirect_url cfg none prompt extra_params sha256
      stateBytes verifierBytes c now =
      (cfg.authorization_endpoint ++ "?" ++ urlencode
        (dictSet (dictSet (extra_params.foldl (fun ps kv => dictSet ps kv.1 kv.2)
          (if strTruthy prompt then
            dictSet [("client_id", cfg.client_id), ("response_type", "code"),
              ("redirect_uri", cfg.redirect_uri), ("response_mode", "query"),
              ("scope", cfg.scope), ("state", token_hex stateBytes)]
              "prompt" (prompt.getD "")
          else [("client_id", cfg.client_id), ("response_type", "code"),
              ("redirect_uri", cfg.redirect_uri), ("response_mode", "query"),
              ("scope", cfg.scope), ("state", token_hex stateBytes)]))
          "code_challenge" (generate_pkce_pair sha256 verifierBytes).2)
          "code_challenge_method" "S256"),
       token_hex stateBytes,
       store_pkce_verifier c (token_hex stateBytes)
         (generate_pkce_pair sha256 verifierBytes).1 now) := by
    unfold build_login_redirect_url
    rw [hpkce]
    rfl
  refine ⟨?_, ?_, ?_, ?_, ?_, ?_⟩
  · rw [hshape]
  · rw [hshape]
    show (hexEncode stateBytes).length = 32
    rw [hexEncode_length, hsb]
  · rw [hshape]
    exact hexEncode_hex stateBytes
  · rw [hshape]
    apply containsSub_of_urlencode
    have hmem : ("code_challenge", (generate_pkce_pair sha256 verifierBytes).2) ∈
        dictSet (dictSet (extra_params.foldl (fun ps kv => dictSet ps kv.1 kv.2)
          (if strTruthy prompt then
            dictSet [("client_id", cfg.client_id), ("response_type", "code"),
              ("redirect_uri", cfg.redirect_uri), ("response_mode", "query"),
              ("scope", cfg.scope), ("state", token_hex stateBytes)]
              "prompt" (prompt.getD "")
          else [("client_id", cfg.client_id), ("response_type", "code"),
              ("redirect_uri", cfg.redirect_uri), ("response_mode", "query"),
              ("scope", cfg.scope), ("state", token_hex stateBytes)]))
          "code_challenge" (generate_pkce_pair sha256 verifierBytes).2)
          "code_challenge_method" "S256" :=
      dictSet_mem_of_ne _ _ _ _ _ (dictSet_mem_self _ _ _) (by decide)
    obtain ⟨p, q, hpq⟩ := urlencode_mem_sub _ _ _ hmem
    exact ⟨p, q, hpq⟩
  · rw [hshape]
    apply containsSub_of_urlencode
    obtain ⟨p, q, hpq⟩ := urlencode_mem_sub _ _ _ (dictSet_mem_self
      (dictSet (extra_params.foldl (fun ps kv => dictSet ps kv.1 kv.2)
        (if strTruthy prompt then
          dictSet [("client_id", cfg.client_id), ("response_type", "code"),
            ("redirect_uri", cfg.redirect_uri), ("response_mode", "query"),
            ("scope", cfg.scope), ("state", token_hex stateBytes)]
            "prompt" (prompt.getD "")
        else [("client_id", cfg.client_id), ("response_type", "code"),
            ("redirect_uri", cfg.redirect_uri), ("response_mode", "query"),
            ("scope", cfg.scope), ("state", token_hex stateBytes)]))
        "code_challenge" (generate_pkce_pair sha256 verifierBytes).2)
      "code_challenge_method" "S256")
    exact ⟨p, q, hpq⟩
  · rw [hshape]
    exact store_pkce_entry c (token_hex stateBytes)
      (generate_pkce_pair sha256 verifierBytes).1 now

/-- Concrete instance of `c7_build_login_redirect_url` on all-zero random
bytes and a constant digest oracle. -/
theorem c7_build_login_redirect_url_witness :
    (build_login_redirect_url cfgEx none none [] (fun _ => List.replicate 32 0)
      (List.replicate 16 0) (List.replicate 64 0) emptyCache 0).2.1 =
      token_hex (List.replicate 16 0)
    ∧ (build_login_redirect_url cfgEx none none [] (fun _ => List.replicate 32 0)
      (List.replicate 16 0) (List.replicate 64 0) emptyCache 0).2.1.length = 32
    ∧ (∀ ch ∈ (build_login_redirect_url cfgEx none none [] (fun _ => List.replicate 32 0)
      (List.replicate 16 0) (List.replicate 64 0) emptyCache 0).2.1.data, isHexChar ch)
    ∧ containsSub (build_login_redirect_url cfgEx none none []
      (fun _ => List.replicate 32 0) (List.replicate 16 0) (List.replicate 64 0)
      emptyCache 0).1
      ("code_challenge=" ++ quotePlus
        (generate_pkce_pair (fun _ => List.replicate 32 0) (List.replicate 64 0)).2)
    ∧ containsSub (build_login_redirect_url cfgEx none none []
      (fun _ => List.replicate 32 0) (List.replicate 16 0) (List.replicate 64 0)
      emptyCache 0).1 "code_challenge_method=S256"
    ∧ (build_login_redirect_url cfgEx none none [] (fun _ => List.replicate 32 0)
      (List.replicate 16 0) (List.replicate 64 0) emptyCache 0).2.2
      (pkceKey (build_login_redirect_url cfgEx none none []
        (fun _ => List.replicate 32 0) (List.replicate 16 0) (List.replicate 64 0)
        emptyCache 0).2.1) =
      some ((generate_pkce_pair (fun _ => List.replicate 32 0)
        (List.replicate 64 0)).1, 0 + PKCE_TTL_SECONDS) :=
  c7_build_login_redirect_url cfgEx rfl none [] (fun _ => List.replicate 32 0)
    (List.replicate 16 0) (List.replicate 64 0) (by decide) emptyCache 0
